import Mathlib

/-!
Verification of `infrastructure/eks/ip_calc.py` (`get_4via6_address`).

The Python function validates a site id, parses an IPv4 CIDR with
`ipaddress.IPv4Network` (CPython's `ipaddress` module, default
`strict=True`), and renders a Tailscale 4via6 IPv6 CIDR string.
Below the relevant parts of CPython's `ipaddress` module and the
function itself are embedded as executable Lean definitions over
`List Char` / `String`, with errors modelled by `Except String`.
-/

/-! ## Character helpers -/

/-- ASCII decimal digit test: models Python `c.isascii() and c.isdigit()`
on a single character (true exactly for `'0'`..`'9'`). -/
def isDigitChar (c : Char) : Bool :=
  decide (48 ≤ c.toNat ∧ c.toNat ≤ 57)

/-- ASCII hexadecimal digit test, upper or lower case: models membership
in CPython `ipaddress`'s `_HEX_DIGITS = frozenset('0123456789ABCDEFabcdef')`. -/
def isHexDigitChar (c : Char) : Bool :=
  decide ((48 ≤ c.toNat ∧ c.toNat ≤ 57) ∨ (97 ≤ c.toNat ∧ c.toNat ≤ 102) ∨
    (65 ≤ c.toNat ∧ c.toNat ≤ 70))

/-- The ASCII character of a decimal digit `d < 10`. -/
def digitChar (d : Nat) : Char := Char.ofNat (48 + d)

/-- The ASCII character of a hex digit `d < 16`, lowercase, as produced by
Python's `"%x"` formatting. -/
def hexDigitChar (d : Nat) : Char :=
  if d < 10 then Char.ofNat (48 + d) else Char.ofNat (87 + d)

/-- Python `f"{b:02x}"` for a byte `b < 256`: two lowercase hex digits,
zero padded. -/
def hex2 (b : Nat) : List Char := [hexDigitChar (b / 16), hexDigitChar (b % 16)]

/-- Fuelled big-endian decimal rendering (fuel ≥ n suffices, since the
argument strictly decreases under division by 10). -/
def decCharsAux : Nat → Nat → List Char
  | 0, _ => []
  | _, 0 => []
  | fuel + 1, n + 1 => decCharsAux fuel ((n + 1) / 10) ++ [digitChar ((n + 1) % 10)]

/-- Python `str(n)` for a nonnegative integer `n`: big-endian decimal digits,
`"0"` for zero. -/
def decChars (n : Nat) : List Char :=
  if n = 0 then ['0'] else decCharsAux n n

/-- Value of a string of decimal digits (models Python `int(s, 10)` on an
all-digit string). -/
def decVal (cs : List Char) : Nat := cs.foldl (fun a c => a * 10 + (c.toNat - 48)) 0

/-- Value of one ASCII hex digit (digits, then uppercase, then lowercase). -/
def hexDigitVal (c : Char) : Nat :=
  if c.toNat ≤ 57 then c.toNat - 48
  else if c.toNat ≤ 70 then c.toNat - 55
  else c.toNat - 87

/-- Value of a string of hex digits (models Python `int(s, 16)` on an
all-hex-digit string). -/
def hexVal (cs : List Char) : Nat := cs.foldl (fun a c => a * 16 + hexDigitVal c) 0

/-- Tail of Python `str.split(sep)` for a one-character separator:
`acc` holds the (reversed) characters of the current field. -/
def splitOnCharAux (sep : Char) : List Char → List Char → List (List Char)
  | [], acc => [acc.reverse]
  | c :: cs, acc =>
      if c = sep then acc.reverse :: splitOnCharAux sep cs []
      else splitOnCharAux sep cs (c :: acc)

/-- Python `s.split(sep)` for a one-character separator `sep`. -/
def splitOnChar (sep : Char) (cs : List Char) : List (List Char) :=
  splitOnCharAux sep cs []

/-! ## Model of CPython `ipaddress` IPv4 parsing

Embeds `_BaseV4._parse_octet`, `_BaseV4._ip_int_from_string`,
`_IPAddressBase._prefix_from_prefix_string`, `_count_righthand_zero_bits`,
`_IPAddressBase._prefix_from_ip_int`, `_IPAddressBase._prefix_from_ip_string`,
`IPv4Network._make_netmask` (string argument case) and
`IPv4Network.__init__` with `strict=True`, for string inputs.
Error messages are abbreviated forms of CPython's. -/

/-- CPython `_parse_octet`: an octet is 1–3 ASCII decimal digits, no leading
zero (unless it is exactly `"0"`), value at most 255; checks in source order. -/
def parse_octet (s : List Char) : Except String Nat :=
  if s = [] then .error "Empty octet not permitted"
  else if ¬ s.all isDigitChar then .error "Only decimal digits permitted"
  else if 3 < s.length then .error "At most 3 characters permitted"
  else if s ≠ ['0'] ∧ s.head? = some '0' then .error "Leading zeros are not permitted"
  else if 255 < decVal s then .error "Octet greater than 255 not permitted"
  else .ok (decVal s)

/-- CPython `_BaseV4._ip_int_from_string`: reject empty, split on `'.'`,
require exactly 4 octets, combine big-endian. -/
def ip_int_from_string (s : List Char) : Except String Nat :=
  if s = [] then .error "Address cannot be empty"
  else
    match splitOnChar '.' s with
    | [o0, o1, o2, o3] =>
        match parse_octet o0 with
        | .error e => .error e
        | .ok b0 =>
        match parse_octet o1 with
        | .error e => .error e
        | .ok b1 =>
        match parse_octet o2 with
        | .error e => .error e
        | .ok b2 =>
        match parse_octet o3 with
        | .error e => .error e
        | .ok b3 => .ok (b0 * 2 ^ 24 + b1 * 2 ^ 16 + b2 * 2 ^ 8 + b3)
    | _ => .error "Expected 4 octets"

/-- CPython `_prefix_from_prefix_string` for IPv4: all-ASCII-digit string
whose value is at most 32. -/
def prefix_from_prefix_string (s : List Char) : Except String Nat :=
  if s = [] ∨ ¬ s.all isDigitChar then .error "Invalid netmask"
  else if 32 < decVal s then .error "Invalid netmask"
  else .ok (decVal s)

/-- Fuelled `int.bit_length` (fuel ≥ n suffices). -/
def bit_length_aux : Nat → Nat → Nat
  | 0, _ => 0
  | _, 0 => 0
  | fuel + 1, n + 1 => bit_length_aux fuel ((n + 1) / 2) + 1

/-- Python `n.bit_length()` for a natural number. -/
def bit_length (n : Nat) : Nat := bit_length_aux n n

/-- CPython `_count_righthand_zero_bits(number, bits)`. Python computes
`(~number & (number - 1)).bit_length()`; on naturals, for `n > 0`,
`~n & (n - 1) = (n ^^^ (n - 1)) / 2` (the trailing-ones mask). -/
def count_righthand_zero_bits (n bits : Nat) : Nat :=
  if n = 0 then bits else min bits (bit_length ((n ^^^ (n - 1)) / 2))

/-- CPython `_prefix_from_ip_int` for IPv4: accept exactly the 32-bit
values of the form `1*0*` and return the number of leading ones. -/
def prefix_from_ip_int (n : Nat) : Except String Nat :=
  let trailing_zeroes := count_righthand_zero_bits n 32
  let prefixlen := 32 - trailing_zeroes
  let leading_ones := n >>> trailing_zeroes
  let all_ones := 2 ^ prefixlen - 1
  if leading_ones ≠ all_ones then .error "Netmask pattern mixes zeroes and ones"
  else .ok prefixlen

/-- CPython `_prefix_from_ip_string` for IPv4: parse as dotted quad, accept
as a netmask, else invert all 32 bits and accept as a hostmask. -/
def prefix_from_ip_string (s : List Char) : Except String Nat :=
  match ip_int_from_string s with
  | .error _ => .error "Invalid netmask"
  | .ok n =>
      match prefix_from_ip_int n with
      | .ok p => .ok p
      | .error _ =>
          match prefix_from_ip_int (n ^^^ (2 ^ 32 - 1)) with
          | .ok p => .ok p
          | .error _ => .error "Invalid netmask"

/-- CPython `IPv4Network._make_netmask` on a string argument: try prefix
length form, then dotted netmask/hostmask form. -/
def make_netmask (s : List Char) : Except String Nat :=
  match prefix_from_prefix_string s with
  | .ok p => .ok p
  | .error _ => prefix_from_ip_string s

/-- CPython `_split_addr_prefix` on a string: split on `'/'`; at most one
`'/'` permitted; a missing prefix part is reported as `none` (Python
substitutes `_max_prefixlen = 32` there). -/
def split_addr_prefixlen (s : List Char) : Except String (List Char × Option (List Char)) :=
  match splitOnChar '/' s with
  | [a] => .ok (a, none)
  | [a, p] => .ok (a, some p)
  | _ => .error "Only one slash permitted"

/-- CPython `IPv4Network.__init__(addr_string, strict=True)`: split address
and prefix, parse the address, parse the netmask (a missing prefix is the
integer 32, which `_make_netmask` accepts directly), and reject addresses
with host bits set. Returns the (network address, prefix length) pair. -/
def IPv4Network_parse (s : String) : Except String (Nat × Nat) :=
  match split_addr_prefixlen s.data with
  | .error e => .error e
  | .ok (addr_str, pstr) =>
      match ip_int_from_string addr_str with
      | .error e => .error e
      | .ok ip =>
          match (match pstr with
                 | none => Except.ok 32
                 | some ps => make_netmask ps : Except String Nat) with
          | .error e => .error e
          | .ok p =>
              if ip &&& (2 ^ 32 - 2 ^ (32 - p)) ≠ ip then .error "has host bits set"
              else .ok (ip, p)

/-! ## The function under verification -/

/-- Embedding of `get_4via6_address` from `infrastructure/eks/ip_calc.py`.
Python raises `ValueError` for a bad site id, and `ipaddress` raises
`ValueError` subclasses for a bad CIDR; both are modelled as `Except.error`.
`fixed_prefix` of the source is named `fixed_prefix_chars` here.
`translator_id` is Python `f"0:{site_id}"`, `ipv4_hex` is the four network
address bytes as two zero-padded lowercase hex hextets, and the result is
Python `f"{fixed_prefix}:{translator_id}:{ipv4_hex}/{prefix_length + 96}"`. -/
def get_4via6_address (site_id : Int) (ipv4_cidr : String) : Except String String :=
  let fixed_prefix_chars := "fd7a:115c:a1e0:b1a".data
  if site_id < 0 ∨ 65535 < site_id then
    .error "Site ID must be between 0 and 65535 (inclusive)"
  else
    let translator_id := ['0', ':'] ++ decChars site_id.toNat
    match IPv4Network_parse ipv4_cidr with
    | .error e => .error e
    | .ok (ip, prefix_length) =>
        let ipv4_hex := hex2 (ip / 2 ^ 24 % 256) ++ hex2 (ip / 2 ^ 16 % 256) ++ [':'] ++
          hex2 (ip / 2 ^ 8 % 256) ++ hex2 (ip % 256)
        .ok (String.mk (fixed_prefix_chars ++ [':'] ++ translator_id ++ [':'] ++ ipv4_hex ++
          ['/'] ++ decChars (prefix_length + 96)))

/-- The character list of the successful output of `get_4via6_address`
for site id `siteN`, network address `a` and prefix length `p`, flattened:
the fixed prefix and translator prefix `"fd7a:115c:a1e0:b1a:0:"`, the
decimal site id, the four network-address bytes as two hex hextets, `'/'`,
and the decimal output prefix length `p + 96`. -/
def outputChars (siteN a p : Nat) : List Char :=
  "fd7a:115c:a1e0:b1a:0:".data ++ decChars siteN ++ [':'] ++
    hex2 (a / 2 ^ 24 % 256) ++ hex2 (a / 2 ^ 16 % 256) ++ [':'] ++
    hex2 (a / 2 ^ 8 % 256) ++ hex2 (a % 256) ++ ['/'] ++ decChars (p + 96)

/-! ## Output decoders and an IPv6 CIDR syntax model

These are spec-side definitions used to state properties of the output
string: extraction of the prefix length and of the last two hextets, and a
model of textual IPv6 CIDR syntax following CPython
`IPv6Address._ip_int_from_string` restricted to dot-free addresses (the
embedded-IPv4 trailing form never arises for the strings considered here)
with a prefix given in decimal prefix-length form. -/

/-- The decimal value of the suffix after the final `'/'` of a string with
exactly one `'/'`. -/
def prefixLenOfOutput (s : String) : Option Nat :=
  match splitOnChar '/' s.data with
  | [_, lenChars] => some (decVal lenChars)
  | _ => none

/-- The value of the last two `':'`-separated hextets before the `'/'`,
decoded as four big-endian hex bytes. -/
def lastTwoHextetsValue (s : String) : Option Nat :=
  match splitOnChar '/' s.data with
  | [addrPart, _] =>
      match (splitOnChar ':' addrPart).reverse with
      | g1 :: g2 :: _ => some (hexVal g2 * 2 ^ 16 + hexVal g1)
      | _ => none
  | _ => none

/-- CPython `_parse_hextet` as a predicate: nonempty, only hex digits,
at most 4 characters. -/
def parse_hextet (s : List Char) : Bool :=
  !s.isEmpty && s.all isHexDigitChar && decide (s.length ≤ 4)

/-- Syntactic validity of a dot-free textual IPv6 address, following
CPython `IPv6Address._ip_int_from_string`: split on `':'`, between 3 and 9
parts, at most one empty part strictly inside (the `'::'` gap), a leading
or trailing empty part only as half of a leading or trailing `'::'`,
at least one group elided by `'::'` when present (at most 7 explicit
groups), exactly 8 groups otherwise, and every explicit group a valid
hextet. -/
def isValidIPv6Addr (cs : List Char) : Bool :=
  let parts := splitOnChar ':' cs
  let n := parts.length
  if n < 3 ∨ 9 < n then false
  else
    match (List.range n).filter
        (fun i => decide (1 ≤ i ∧ i + 1 < n) && (parts.getD i [' ']).isEmpty) with
    | [] => decide (n = 8) && parts.all parse_hextet
    | [i] =>
        let leadingEmpty := (parts.getD 0 [' ']).isEmpty
        let trailingEmpty := (parts.getD (n - 1) [' ']).isEmpty
        let hi := if leadingEmpty then i - 1 else i
        let lo := if trailingEmpty then n - i - 2 else n - i - 1
        (!leadingEmpty || decide (i = 1)) &&
        (!trailingEmpty || decide (i = n - 2)) &&
        decide (hi + lo ≤ 7) &&
        (parts.take hi).all parse_hextet &&
        ((parts.drop (n - lo)).all parse_hextet)
    | _ => false

/-- Syntactic validity of an IPv6 CIDR literal: a valid IPv6 address,
optionally followed by `'/'` and a decimal prefix length of at most 128. -/
def isValidIPv6CIDR (s : String) : Bool :=
  match splitOnChar '/' s.data with
  | [a] => isValidIPv6Addr a
  | [a, p] =>
      isValidIPv6Addr a && !p.isEmpty && p.all isDigitChar && decide (decVal p ≤ 128)
  | _ => false

/-! ## Lemmas about splitting -/

theorem splitOnCharAux_of_not_mem (sep : Char) :
    ∀ (cs acc : List Char), sep ∉ cs → splitOnCharAux sep cs acc = [acc.reverse ++ cs]
  | [], acc, _ => by simp [splitOnCharAux]
  | c :: cs, acc, h => by
      have hc : c ≠ sep := fun e => h (e ▸ List.mem_cons_self c cs)
      have hcs : sep ∉ cs := fun m => h (List.mem_cons_of_mem _ m)
      simp [splitOnCharAux, hc, splitOnCharAux_of_not_mem sep cs (c :: acc) hcs]

theorem splitOnChar_of_not_mem {sep : Char} {cs : List Char} (h : sep ∉ cs) :
    splitOnChar sep cs = [cs] := by
  simpa [splitOnChar] using splitOnCharAux_of_not_mem sep cs [] h

theorem splitOnCharAux_append (sep : Char) :
    ∀ (l rest acc : List Char), sep ∉ l →
      splitOnCharAux sep (l ++ rest) acc = splitOnCharAux sep rest (l.reverse ++ acc)
  | [], _, _, _ => by simp
  | c :: l, rest, acc, h => by
      have hc : c ≠ sep := fun e => h (e ▸ List.mem_cons_self c l)
      have hl : sep ∉ l := fun m => h (List.mem_cons_of_mem _ m)
      simp [splitOnCharAux, hc, splitOnCharAux_append sep l rest (c :: acc) hl]

theorem splitOnChar_append_cons {sep : Char} {l : List Char} (rest : List Char) (h : sep ∉ l) :
    splitOnChar sep (l ++ sep :: rest) = l :: splitOnChar sep rest := by
  unfold splitOnChar
  rw [splitOnCharAux_append sep l (sep :: rest) [] h]
  simp [splitOnCharAux]

/-! ## Lemmas about character classes and rendering -/

theorem isDigitChar_digitChar : ∀ d, d < 10 → isDigitChar (digitChar d) = true := by decide

theorem digitChar_toNat : ∀ d, d < 10 → (digitChar d).toNat = 48 + d := by decide

theorem isHexDigitChar_hexDigitChar : ∀ d, d < 16 → isHexDigitChar (hexDigitChar d) = true := by
  decide

theorem hexDigitVal_hexDigitChar : ∀ d, d < 16 → hexDigitVal (hexDigitChar d) = d := by decide

theorem isHexDigitChar_of_isDigitChar {c : Char} (h : isDigitChar c = true) :
    isHexDigitChar c = true := by
  simp only [isDigitChar, decide_eq_true_eq] at h
  simp only [isHexDigitChar, decide_eq_true_eq]
  omega

theorem not_mem_of_all_isDigitChar {l : List Char} (h : l.all isDigitChar = true)
    {d : Char} (hd : d.toNat < 48 ∨ 57 < d.toNat) : d ∉ l := by
  intro hm
  have hall := List.all_eq_true.mp h d hm
  simp only [isDigitChar, decide_eq_true_eq] at hall
  omega

theorem not_mem_of_all_isHexDigitChar {l : List Char} (h : l.all isHexDigitChar = true)
    {d : Char}
    (hd : d.toNat < 48 ∨ (57 < d.toNat ∧ d.toNat < 65) ∨ (70 < d.toNat ∧ d.toNat < 97) ∨
      102 < d.toNat) : d ∉ l := by
  intro hm
  have hall := List.all_eq_true.mp h d hm
  simp only [isHexDigitChar, decide_eq_true_eq] at hall
  omega

theorem decCharsAux_all_digit : ∀ fuel n, (decCharsAux fuel n).all isDigitChar = true
  | 0, _ => by simp [decCharsAux]
  | _ + 1, 0 => rfl
  | fuel + 1, n + 1 => by
      rw [decCharsAux]
      simp only [List.all_append, decCharsAux_all_digit fuel ((n + 1) / 10), Bool.true_and]
      simp [isDigitChar_digitChar _ (Nat.mod_lt _ (by omega))]

theorem decChars_all_digit (n : Nat) : (decChars n).all isDigitChar = true := by
  unfold decChars
  split
  · decide
  · exact decCharsAux_all_digit n n

theorem decChars_ne_nil (n : Nat) : decChars n ≠ [] := by
  cases n with
  | zero => simp [decChars]
  | succ m => simp [decChars, decCharsAux]

theorem foldl_decVal (y : List Char) :
    ∀ a : Nat, y.foldl (fun a c => a * 10 + (c.toNat - 48)) a = a * 10 ^ y.length + decVal y := by
  induction y with
  | nil => intro a; simp [decVal]
  | cons c y ih =>
      intro a
      have h1 := ih (a * 10 + (c.toNat - 48))
      have h2 := ih (0 * 10 + (c.toNat - 48))
      simp only [decVal, List.foldl_cons, List.length_cons] at h1 h2 ⊢
      rw [h1, h2]
      ring

theorem decVal_append (x y : List Char) :
    decVal (x ++ y) = decVal x * 10 ^ y.length + decVal y := by
  simp only [decVal, List.foldl_append]
  exact foldl_decVal y _

theorem decVal_decCharsAux : ∀ fuel n, n ≤ fuel → decVal (decCharsAux fuel n) = n
  | 0, 0, _ => rfl
  | 0, _ + 1, h => absurd h (by omega)
  | _ + 1, 0, _ => rfl
  | fuel + 1, n + 1, h => by
      have hd : (n + 1) / 10 ≤ fuel := by
        have := Nat.div_lt_self (Nat.succ_pos n) (by omega : 1 < 10)
        omega
      have hm : (n + 1) % 10 < 10 := Nat.mod_lt _ (by omega)
      rw [decCharsAux, decVal_append, decVal_decCharsAux fuel ((n + 1) / 10) hd]
      simp [decVal, digitChar_toNat _ hm]
      omega

theorem decVal_decChars (n : Nat) : decVal (decChars n) = n := by
  unfold decChars
  split
  · next h => subst h; decide
  · exact decVal_decCharsAux n n le_rfl

theorem decCharsAux_length_le : ∀ fuel n k, n < 10 ^ k → (decCharsAux fuel n).length ≤ k
  | 0, _, _, _ => by simp [decCharsAux]
  | _ + 1, 0, _, _ => by simp [decCharsAux]
  | fuel + 1, n + 1, k, h => by
      have hk : 0 < k := by
        by_contra hk
        have hk0 : k = 0 := by omega
        subst hk0
        simp at h
      have hpow : 10 ^ k = 10 ^ (k - 1) * 10 := by
        conv_lhs => rw [show k = (k - 1) + 1 by omega]
        rw [pow_succ]
      have hdiv : (n + 1) / 10 < 10 ^ (k - 1) := by
        rw [Nat.div_lt_iff_lt_mul (by omega : 0 < 10)]
        omega
      have := decCharsAux_length_le fuel ((n + 1) / 10) (k - 1) hdiv
      rw [decCharsAux]
      simp only [List.length_append, List.length_singleton]
      omega

theorem decChars_length_le {n k : Nat} (hk : 0 < k) (h : n < 10 ^ k) :
    (decChars n).length ≤ k := by
  unfold decChars
  split
  · simpa using hk
  · exact decCharsAux_length_le n n k h

theorem foldl_hexVal (y : List Char) :
    ∀ a : Nat, y.foldl (fun a c => a * 16 + hexDigitVal c) a = a * 16 ^ y.length + hexVal y := by
  induction y with
  | nil => intro a; simp [hexVal]
  | cons c y ih =>
      intro a
      have h1 := ih (a * 16 + hexDigitVal c)
      have h2 := ih (0 * 16 + hexDigitVal c)
      simp only [hexVal, List.foldl_cons, List.length_cons] at h1 h2 ⊢
      rw [h1, h2]
      ring

theorem hexVal_append (x y : List Char) :
    hexVal (x ++ y) = hexVal x * 16 ^ y.length + hexVal y := by
  simp only [hexVal, List.foldl_append]
  exact foldl_hexVal y _

theorem hexVal_hex2 {b : Nat} (h : b < 256) : hexVal (hex2 b) = b := by
  have h1 : b / 16 < 16 := by omega
  have h2 : b % 16 < 16 := Nat.mod_lt _ (by omega)
  simp [hex2, hexVal, hexDigitVal_hexDigitChar _ h1, hexDigitVal_hexDigitChar _ h2]
  omega

theorem hex2_all_hex {b : Nat} (h : b < 256) : (hex2 b).all isHexDigitChar = true := by
  have h1 : b / 16 < 16 := by omega
  have h2 : b % 16 < 16 := Nat.mod_lt _ (by omega)
  simp [hex2, isHexDigitChar_hexDigitChar _ h1, isHexDigitChar_hexDigitChar _ h2]

/-! ## Lemmas about the IPv4 parser -/

theorem parse_octet_ok_le {s : List Char} {v : Nat} (h : parse_octet s = .ok v) : v ≤ 255 := by
  unfold parse_octet at h
  split at h
  · simp at h
  · split at h
    · simp at h
    · split at h
      · simp at h
      · split at h
        · simp at h
        · split at h
          · simp at h
          · cases h
            omega

theorem ip_int_from_string_ok_lt {s : List Char} {a : Nat}
    (h : ip_int_from_string s = .ok a) : a < 2 ^ 32 := by
  unfold ip_int_from_string at h
  split at h
  · simp at h
  · split at h
    · split at h
      · simp at h
      · rename_i b0 hb0
        split at h
        · simp at h
        · rename_i b1 hb1
          split at h
          · simp at h
          · rename_i b2 hb2
            split at h
            · simp at h
            · rename_i b3 hb3
              cases h
              have h0 := parse_octet_ok_le hb0
              have h1 := parse_octet_ok_le hb1
              have h2 := parse_octet_ok_le hb2
              have h3 := parse_octet_ok_le hb3
              omega
    · simp at h

theorem prefix_from_prefix_string_ok_le {s : List Char} {p : Nat}
    (h : prefix_from_prefix_string s = .ok p) : p ≤ 32 := by
  unfold prefix_from_prefix_string at h
  split at h
  · simp at h
  · split at h
    · simp at h
    · cases h
      omega

theorem prefix_from_ip_int_ok_le {n p : Nat} (h : prefix_from_ip_int n = .ok p) : p ≤ 32 := by
  simp only [prefix_from_ip_int] at h
  split at h
  · simp at h
  · cases h
    omega

theorem prefix_from_ip_string_ok_le {s : List Char} {p : Nat}
    (h : prefix_from_ip_string s = .ok p) : p ≤ 32 := by
  unfold prefix_from_ip_string at h
  split at h
  · simp at h
  · split at h
    · rename_i p' hp'
      cases h
      exact prefix_from_ip_int_ok_le hp'
    · split at h
      · rename_i p' hp'
        cases h
        exact prefix_from_ip_int_ok_le hp'
      · simp at h

theorem make_netmask_ok_le {s : List Char} {p : Nat} (h : make_netmask s = .ok p) : p ≤ 32 := by
  unfold make_netmask at h
  split at h
  · rename_i p' hp'
    cases h
    exact prefix_from_prefix_string_ok_le hp'
  · exact prefix_from_ip_string_ok_le h

theorem IPv4Network_parse_ok_bounds {s : String} {a p : Nat}
    (h : IPv4Network_parse s = .ok (a, p)) : a < 2 ^ 32 ∧ p ≤ 32 := by
  unfold IPv4Network_parse at h
  split at h
  · simp at h
  · split at h
    · simp at h
    · rename_i ip hip
      split at h
      · simp at h
      · rename_i p' hp'
        split at h
        · simp at h
        · cases h
          refine ⟨ip_int_from_string_ok_lt hip, ?_⟩
          split at hp'
          · cases hp'
            omega
          · exact make_netmask_ok_le hp'

/-! ## Helpers for evaluating `get_4via6_address` -/

theorem get_4via6_address_ok {site : Int} {s : String} {a p : Nat}
    (h0 : 0 ≤ site) (h1 : site ≤ 65535) (hp : IPv4Network_parse s = .ok (a, p)) :
    get_4via6_address site s = .ok (String.mk (outputChars site.toNat a p)) := by
  simp only [get_4via6_address]
  rw [if_neg (by omega), hp]
  show Except.ok _ = _
  refine congrArg Except.ok (congrArg String.mk ?_)
  unfold outputChars
  have e21 : "fd7a:115c:a1e0:b1a:0:".data =
      'f' :: 'd' :: '7' :: 'a' :: ':' :: '1' :: '1' :: '5' :: 'c' :: ':' ::
      'a' :: '1' :: 'e' :: '0' :: ':' :: 'b' :: '1' :: 'a' :: ':' :: '0' :: ':' :: [] := rfl
  rw [e21]
  simp [List.append_assoc]

theorem get_4via6_address_err {site : Int} {s : String} {e : String}
    (h0 : 0 ≤ site) (h1 : site ≤ 65535) (hp : IPv4Network_parse s = .error e) :
    get_4via6_address site s = .error e := by
  simp only [get_4via6_address]
  rw [if_neg (by omega), hp]

theorem get_4via6_address_out_of_range {site : Int} (h : site < 0 ∨ 65535 < site)
    (s : String) :
    get_4via6_address site s = .error "Site ID must be between 0 and 65535 (inclusive)" := by
  simp only [get_4via6_address]
  rw [if_pos h]

theorem get_4via6_address_ok_range {site : Int} {s out : String}
    (h : get_4via6_address site s = .ok out) : 0 ≤ site ∧ site ≤ 65535 := by
  by_contra hc
  rw [get_4via6_address_out_of_range (by omega) s] at h
  simp at h

theorem get_4via6_address_ok_out {site : Int} {s out : String} {a p : Nat}
    (hp : IPv4Network_parse s = .ok (a, p)) (h : get_4via6_address site s = .ok out) :
    out = String.mk (outputChars site.toNat a p) := by
  obtain ⟨h0, h1⟩ := get_4via6_address_ok_range h
  rw [get_4via6_address_ok h0 h1 hp] at h
  injection h with h
  exact h.symm

/-! ## Structure of the output string -/

theorem not_mem_append_chars {x : Char} {l1 l2 : List Char} (h1 : x ∉ l1) (h2 : x ∉ l2) :
    x ∉ l1 ++ l2 := by
  intro hm
  rcases List.mem_append.mp hm with h | h
  · exact h1 h
  · exact h2 h

theorem isEmpty_eq_false_of_ne_nil {l : List Char} (h : l ≠ []) : l.isEmpty = false := by
  cases l with
  | nil => exact absurd rfl h
  | cons c t => rfl

theorem all_hex_of_all_digit {l : List Char} (h : l.all isDigitChar = true) :
    l.all isHexDigitChar = true := by
  rw [List.all_eq_true] at h ⊢
  exact fun c hc => isHexDigitChar_of_isDigitChar (h c hc)

theorem slash_not_mem_decChars (n : Nat) : '/' ∉ decChars n :=
  not_mem_of_all_isDigitChar (decChars_all_digit n) (by decide)

theorem colon_not_mem_decChars (n : Nat) : ':' ∉ decChars n :=
  not_mem_of_all_isDigitChar (decChars_all_digit n) (by decide)

theorem slash_not_mem_hex2 {b : Nat} (h : b < 256) : '/' ∉ hex2 b :=
  not_mem_of_all_isHexDigitChar (hex2_all_hex h) (by decide)

theorem colon_not_mem_hex2 {b : Nat} (h : b < 256) : ':' ∉ hex2 b :=
  not_mem_of_all_isHexDigitChar (hex2_all_hex h) (by decide)

theorem parse_hextet_decChars {n : Nat} (h : n ≤ 9999) :
    parse_hextet (decChars n) = true := by
  unfold parse_hextet
  rw [isEmpty_eq_false_of_ne_nil (decChars_ne_nil n), all_hex_of_all_digit (decChars_all_digit n)]
  have hlen : (decChars n).length ≤ 4 :=
    decChars_length_le (by omega) (by omega : n < 10 ^ 4)
  simp [hlen]

theorem parse_hextet_hex2_append {b c : Nat} (hb : b < 256) (hc : c < 256) :
    parse_hextet (hex2 b ++ hex2 c) = true := by
  unfold parse_hextet
  rw [List.all_append, hex2_all_hex hb, hex2_all_hex hc]
  simp [hex2]

theorem splitSlash_outputChars (siteN a p : Nat) :
    splitOnChar '/' (outputChars siteN a p) =
      ["fd7a:115c:a1e0:b1a:0:".data ++ decChars siteN ++ [':'] ++
        hex2 (a / 2 ^ 24 % 256) ++ hex2 (a / 2 ^ 16 % 256) ++ [':'] ++
        hex2 (a / 2 ^ 8 % 256) ++ hex2 (a % 256), decChars (p + 96)] := by
  have hL : '/' ∉ "fd7a:115c:a1e0:b1a:0:".data ++ decChars siteN ++ [':'] ++
      hex2 (a / 2 ^ 24 % 256) ++ hex2 (a / 2 ^ 16 % 256) ++ [':'] ++
      hex2 (a / 2 ^ 8 % 256) ++ hex2 (a % 256) := by
    intro hm
    simp only [List.mem_append] at hm
    rcases hm with ((((((hm | hm) | hm) | hm) | hm) | hm) | hm) | hm
    · exact absurd hm (by decide)
    · exact slash_not_mem_decChars _ hm
    · exact absurd hm (by decide)
    · exact slash_not_mem_hex2 (Nat.mod_lt _ (by omega)) hm
    · exact slash_not_mem_hex2 (Nat.mod_lt _ (by omega)) hm
    · exact absurd hm (by decide)
    · exact slash_not_mem_hex2 (Nat.mod_lt _ (by omega)) hm
    · exact slash_not_mem_hex2 (Nat.mod_lt _ (by omega)) hm
  have e : outputChars siteN a p =
      ("fd7a:115c:a1e0:b1a:0:".data ++ decChars siteN ++ [':'] ++
        hex2 (a / 2 ^ 24 % 256) ++ hex2 (a / 2 ^ 16 % 256) ++ [':'] ++
        hex2 (a / 2 ^ 8 % 256) ++ hex2 (a % 256)) ++ '/' :: decChars (p + 96) := by
    unfold outputChars
    simp [List.append_assoc]
  rw [e, splitOnChar_append_cons _ hL,
    splitOnChar_of_not_mem (slash_not_mem_decChars (p + 96))]

theorem splitColon_addrPart (siteN a : Nat) :
    splitOnChar ':' ("fd7a:115c:a1e0:b1a:0:".data ++ decChars siteN ++ [':'] ++
        hex2 (a / 2 ^ 24 % 256) ++ hex2 (a / 2 ^ 16 % 256) ++ [':'] ++
        hex2 (a / 2 ^ 8 % 256) ++ hex2 (a % 256)) =
      [['f', 'd', '7', 'a'], ['1', '1', '5', 'c'], ['a', '1', 'e', '0'], ['b', '1', 'a'],
        ['0'], decChars siteN,
        hex2 (a / 2 ^ 24 % 256) ++ hex2 (a / 2 ^ 16 % 256),
        hex2 (a / 2 ^ 8 % 256) ++ hex2 (a % 256)] := by
  have hb0 : a / 2 ^ 24 % 256 < 256 := Nat.mod_lt _ (by omega)
  have hb1 : a / 2 ^ 16 % 256 < 256 := Nat.mod_lt _ (by omega)
  have hb2 : a / 2 ^ 8 % 256 < 256 := Nat.mod_lt _ (by omega)
  have hb3 : a % 256 < 256 := Nat.mod_lt _ (by omega)
  have e0 : "fd7a:115c:a1e0:b1a:0:".data =
      ['f', 'd', '7', 'a'] ++ ':' :: (['1', '1', '5', 'c'] ++ ':' :: (['a', '1', 'e', '0'] ++
        ':' :: (['b', '1', 'a'] ++ ':' :: (['0'] ++ [':'])))) := rfl
  have e : "fd7a:115c:a1e0:b1a:0:".data ++ decChars siteN ++ [':'] ++
      hex2 (a / 2 ^ 24 % 256) ++ hex2 (a / 2 ^ 16 % 256) ++ [':'] ++
      hex2 (a / 2 ^ 8 % 256) ++ hex2 (a % 256) =
      ['f', 'd', '7', 'a'] ++ ':' :: (['1', '1', '5', 'c'] ++ ':' :: (['a', '1', 'e', '0'] ++
        ':' :: (['b', '1', 'a'] ++ ':' :: (['0'] ++ ':' :: (decChars siteN ++ ':' ::
          ((hex2 (a / 2 ^ 24 % 256) ++ hex2 (a / 2 ^ 16 % 256)) ++ ':' ::
            (hex2 (a / 2 ^ 8 % 256) ++ hex2 (a % 256)))))))) := by
    rw [e0]
    simp [List.append_assoc]
  rw [e]
  rw [splitOnChar_append_cons _ (by decide)]
  rw [splitOnChar_append_cons _ (by decide)]
  rw [splitOnChar_append_cons _ (by decide)]
  rw [splitOnChar_append_cons _ (by decide)]
  rw [splitOnChar_append_cons _ (by decide)]
  rw [splitOnChar_append_cons _ (colon_not_mem_decChars siteN)]
  rw [splitOnChar_append_cons _ (not_mem_append_chars (colon_not_mem_hex2 hb0)
    (colon_not_mem_hex2 hb1))]
  rw [splitOnChar_of_not_mem (not_mem_append_chars (colon_not_mem_hex2 hb2)
    (colon_not_mem_hex2 hb3))]

theorem prefixLenOfOutput_outputChars (siteN a p : Nat) :
    prefixLenOfOutput (String.mk (outputChars siteN a p)) = some (p + 96) := by
  unfold prefixLenOfOutput
  simp [splitSlash_outputChars, decVal_decChars]

theorem lastTwoHextetsValue_outputChars {a : Nat} (siteN p : Nat) (ha : a < 2 ^ 32) :
    lastTwoHextetsValue (String.mk (outputChars siteN a p)) = some a := by
  have hb0 : a / 2 ^ 24 % 256 < 256 := Nat.mod_lt _ (by omega)
  have hb1 : a / 2 ^ 16 % 256 < 256 := Nat.mod_lt _ (by omega)
  have hb2 : a / 2 ^ 8 % 256 < 256 := Nat.mod_lt _ (by omega)
  have hb3 : a % 256 < 256 := Nat.mod_lt _ (by omega)
  unfold lastTwoHextetsValue
  simp only [splitSlash_outputChars]
  rw [splitColon_addrPart]
  simp only [List.reverse_cons, List.reverse_nil, List.nil_append, List.cons_append,
    List.append_assoc]
  rw [hexVal_append, hexVal_append, hexVal_hex2 hb0, hexVal_hex2 hb1, hexVal_hex2 hb2,
    hexVal_hex2 hb3]
  simp only [hex2, List.length_cons, List.length_nil]
  norm_num
  omega

theorem isEmpty_false_of_parse_hextet {l : List Char} (h : parse_hextet l = true) :
    l.isEmpty = false := by
  unfold parse_hextet at h
  simp only [Bool.and_eq_true, Bool.not_eq_true'] at h
  exact h.1.1

theorem isValidIPv6Addr_eight {cs q1 q2 q3 q4 q5 q6 q7 q8 : List Char}
    (hsplit : splitOnChar ':' cs = [q1, q2, q3, q4, q5, q6, q7, q8])
    (h1 : parse_hextet q1 = true) (h2 : parse_hextet q2 = true)
    (h3 : parse_hextet q3 = true) (h4 : parse_hextet q4 = true)
    (h5 : parse_hextet q5 = true) (h6 : parse_hextet q6 = true)
    (h7 : parse_hextet q7 = true) (h8 : parse_hextet q8 = true) :
    isValidIPv6Addr cs = true := by
  have hemp : ∀ i, (([q1, q2, q3, q4, q5, q6, q7, q8].getD i [' '])).isEmpty = false := by
    intro i
    match i with
    | 0 => exact isEmpty_false_of_parse_hextet h1
    | 1 => exact isEmpty_false_of_parse_hextet h2
    | 2 => exact isEmpty_false_of_parse_hextet h3
    | 3 => exact isEmpty_false_of_parse_hextet h4
    | 4 => exact isEmpty_false_of_parse_hextet h5
    | 5 => exact isEmpty_false_of_parse_hextet h6
    | 6 => exact isEmpty_false_of_parse_hextet h7
    | 7 => exact isEmpty_false_of_parse_hextet h8
    | _ + 8 => rfl
  unfold isValidIPv6Addr
  rw [hsplit]
  simp only [List.length_cons, List.length_nil]
  norm_num
  have hfil : List.filter
      (fun i => decide (1 ≤ i) && decide (i + 1 < 8) &&
        ([q1, q2, q3, q4, q5, q6, q7, q8][i]?.getD [' ']).isEmpty)
      (List.range 8) = [] := by
    rw [List.filter_eq_nil_iff]
    intro i _ hcontra
    have hi := hemp i
    simp only [List.getD, List.get?_eq_getElem?] at hi
    simp [hi] at hcontra
  rw [hfil]
  simp [h1, h2, h3, h4, h5, h6, h7, h8]

theorem isValidIPv6CIDR_outputChars {siteN : Nat} (a : Nat) {p : Nat}
    (hsite : siteN ≤ 9999) (hp : p ≤ 32) :
    isValidIPv6CIDR (String.mk (outputChars siteN a p)) = true := by
  have hb0 : a / 2 ^ 24 % 256 < 256 := Nat.mod_lt _ (by omega)
  have hb1 : a / 2 ^ 16 % 256 < 256 := Nat.mod_lt _ (by omega)
  have hb2 : a / 2 ^ 8 % 256 < 256 := Nat.mod_lt _ (by omega)
  have hb3 : a % 256 < 256 := Nat.mod_lt _ (by omega)
  have haddr : isValidIPv6Addr ("fd7a:115c:a1e0:b1a:0:".data ++ decChars siteN ++ [':'] ++
      hex2 (a / 2 ^ 24 % 256) ++ hex2 (a / 2 ^ 16 % 256) ++ [':'] ++
      hex2 (a / 2 ^ 8 % 256) ++ hex2 (a % 256)) = true :=
    isValidIPv6Addr_eight (splitColon_addrPart siteN a)
      (by decide) (by decide) (by decide) (by decide) (by decide)
      (parse_hextet_decChars hsite)
      (parse_hextet_hex2_append hb0 hb1) (parse_hextet_hex2_append hb2 hb3)
  unfold isValidIPv6CIDR
  simp only [splitSlash_outputChars]
  rw [haddr, isEmpty_eq_false_of_ne_nil (decChars_ne_nil (p + 96)),
    decChars_all_digit (p + 96), decVal_decChars (p + 96)]
  simp only [Bool.not_false, Bool.true_and, Bool.and_true, decide_eq_true_eq]
  omega

theorem IPv4Network_parse_no_slash {s : String} {a : Nat}
    (hs : '/' ∉ s.data) (ha : ip_int_from_string s.data = .ok a) :
    IPv4Network_parse s = .ok (a, 32) := by
  have hlt := ip_int_from_string_ok_lt ha
  have hsplit : split_addr_prefixlen s.data = .ok (s.data, none) := by
    unfold split_addr_prefixlen
    rw [splitOnChar_of_not_mem hs]
  unfold IPv4Network_parse
  rw [hsplit]
  simp only [ha]
  have hmask : a &&& 4294967295 = a := by
    rw [show (4294967295 : Nat) = 2 ^ 32 - 1 by norm_num, Nat.and_pow_two_sub_one_eq_mod]
    exact Nat.mod_eq_of_lt hlt
  simp [hmask]

theorem IPv4Network_parse_host_bits {s : String} {addr_str pstr : List Char} {a p : Nat}
    (hsplit : split_addr_prefixlen s.data = .ok (addr_str, some pstr))
    (ha : ip_int_from_string addr_str = .ok a)
    (hm : make_netmask pstr = .ok p)
    (hhost : a &&& (2 ^ 32 - 2 ^ (32 - p)) ≠ a) :
    IPv4Network_parse s = .error "has host bits set" := by
  unfold IPv4Network_parse
  rw [hsplit]
  simp only [ha, hm]
  rw [if_pos hhost]

/-! ## Claim theorems -/

/-- C1: for every site id in [0, 65535] and every IPv4 CIDR string the parser
accepts with network address `a` and prefix length `p`, `get_4via6_address`
returns exactly the fixed prefix and translator field
`"fd7a:115c:a1e0:b1a:0:"`, the decimal site id, a colon, the four network
address bytes rendered as two hextets of zero-padded lowercase hex
(`hex(b0)hex(b1):hex(b2)hex(b3)`), a slash, and the decimal rendering of
`p + 96`. -/
theorem c1_output_format (site : Int) (s : String) (a p : Nat)
    (h0 : 0 ≤ site) (h1 : site ≤ 65535) (hp : IPv4Network_parse s = .ok (a, p)) :
    get_4via6_address site s =
      .ok (String.mk ("fd7a:115c:a1e0:b1a:0:".data ++ decChars site.toNat ++ [':'] ++
        (hex2 (a / 2 ^ 24 % 256) ++ hex2 (a / 2 ^ 16 % 256)) ++ [':'] ++
        (hex2 (a / 2 ^ 8 % 256) ++ hex2 (a % 256)) ++ ['/'] ++ decChars (p + 96))) := by
  rw [get_4via6_address_ok h0 h1 hp]
  refine congrArg Except.ok (congrArg String.mk ?_)
  unfold outputChars
  simp [List.append_assoc]

/-- Witness for C1 at `site_id = 1` and `"10.100.0.0/16"`
(network address `174325760 = 0x0a640000`, prefix 16). -/
theorem c1_output_format_witness :
    (0 : Int) ≤ 1 ∧ (1 : Int) ≤ 65535 ∧
      IPv4Network_parse "10.100.0.0/16" = .ok (174325760, 16) ∧
      get_4via6_address 1 "10.100.0.0/16" =
        .ok (String.mk ("fd7a:115c:a1e0:b1a:0:".data ++ decChars (1 : Int).toNat ++ [':'] ++
          (hex2 (174325760 / 2 ^ 24 % 256) ++ hex2 (174325760 / 2 ^ 16 % 256)) ++ [':'] ++
          (hex2 (174325760 / 2 ^ 8 % 256) ++ hex2 (174325760 % 256)) ++ ['/'] ++
          decChars (16 + 96))) :=
  ⟨by decide, by decide, rfl,
    c1_output_format 1 "10.100.0.0/16" 174325760 16 (by decide) (by decide) rfl⟩

/-- C2 counterexample: at `site_id = 10000` the translator field has five
decimal digits, which is not a valid IPv6 hextet, so the output of
`get_4via6_address` is not a syntactically valid IPv6 CIDR literal. -/
theorem c2_not_ipv6_counterexample :
    get_4via6_address 10000 "10.100.0.0/16" =
      .ok "fd7a:115c:a1e0:b1a:0:10000:0a64:0000/112" ∧
    isValidIPv6CIDR "fd7a:115c:a1e0:b1a:0:10000:0a64:0000/112" = false :=
  ⟨rfl, by decide⟩

/-- C2 amended: for every site id in [0, 9999] (the site ids whose decimal
rendering fits in an IPv6 hextet of at most four digits) and every accepted
IPv4 CIDR with prefix length `p`, the returned string is a syntactically
valid IPv6 CIDR literal whose prefix length is exactly `p + 96`. -/
theorem c2_valid_ipv6_for_small_site_ids (site : Int) (s : String) (a p : Nat) (out : String)
    (h0 : 0 ≤ site) (h1 : site ≤ 9999)
    (hp : IPv4Network_parse s = .ok (a, p)) (h : get_4via6_address site s = .ok out) :
    isValidIPv6CIDR out = true ∧ prefixLenOfOutput out = some (p + 96) := by
  have hout := get_4via6_address_ok_out hp h
  subst hout
  have hb := IPv4Network_parse_ok_bounds hp
  exact ⟨isValidIPv6CIDR_outputChars a (by omega) hb.2, prefixLenOfOutput_outputChars _ _ _⟩

/-- Witness for the amended C2 at `site_id = 1` and `"10.100.0.0/16"`. -/
theorem c2_valid_ipv6_for_small_site_ids_witness :
    isValidIPv6CIDR "fd7a:115c:a1e0:b1a:0:1:0a64:0000/112" = true ∧
    prefixLenOfOutput "fd7a:115c:a1e0:b1a:0:1:0a64:0000/112" = some (16 + 96) :=
  c2_valid_ipv6_for_small_site_ids 1 "10.100.0.0/16" 174325760 16
    "fd7a:115c:a1e0:b1a:0:1:0a64:0000/112" (by decide) (by decide) rfl rfl

/-- C3 counterexample: on a host address with set host bits the function
does not succeed with the normalized network address; `strict=True` parsing
raises, so `get_4via6_address 1 "10.100.1.5/16"` is an error while the
network-address input succeeds. -/
theorem c3_host_bits_counterexample :
    get_4via6_address 1 "10.100.1.5/16" = .error "has host bits set" ∧
    get_4via6_address 1 "10.100.0.0/16" = .ok "fd7a:115c:a1e0:b1a:0:1:0a64:0000/112" :=
  ⟨rfl, rfl⟩

/-- C3 amended: for every in-range site id, when the CIDR splits into an
address that parses to `a` and a prefix that parses to `p`, but `a` has
host bits set beyond `p` (it is not fixed by the network mask), the
function fails with the strict-parsing "has host bits set" error instead
of normalizing. -/
theorem c3_host_bits_rejected (site : Int) (s : String) (addr_str pstr : List Char)
    (a p : Nat) (h0 : 0 ≤ site) (h1 : site ≤ 65535)
    (hsplit : split_addr_prefixlen s.data = .ok (addr_str, some pstr))
    (ha : ip_int_from_string addr_str = .ok a)
    (hm : make_netmask pstr = .ok p)
    (hhost : a &&& (2 ^ 32 - 2 ^ (32 - p)) ≠ a) :
    get_4via6_address site s = .error "has host bits set" :=
  get_4via6_address_err h0 h1 (IPv4Network_parse_host_bits hsplit ha hm hhost)

/-- Witness for the amended C3 at `site_id = 1` and `"10.100.1.5/16"`
(address `174326021 = 0x0a640105`, prefix 16). -/
theorem c3_host_bits_rejected_witness :
    get_4via6_address 1 "10.100.1.5/16" = .error "has host bits set" :=
  c3_host_bits_rejected 1 "10.100.1.5/16" "10.100.1.5".data "16".data 174326021 16
    (by decide) (by decide) rfl rfl rfl (by decide)

/-- C4: the function fails with the site-id `ValueError` exactly when the
site id is out of [0, 65535], and this check comes first: every out-of-range
site id yields the site-id error for every CIDR string, well-formed or not,
while every in-range site id with an accepted CIDR succeeds. -/
theorem c4_site_id_range_check (site : Int) (s : String) :
    ((site < 0 ∨ 65535 < site) →
      get_4via6_address site s = .error "Site ID must be between 0 and 65535 (inclusive)") ∧
    (0 ≤ site → site ≤ 65535 → ∀ a p, IPv4Network_parse s = .ok (a, p) →
      (get_4via6_address site s).isOk = true) := by
  constructor
  · intro h
    exact get_4via6_address_out_of_range h s
  · intro h0 h1 a p hp
    rw [get_4via6_address_ok h0 h1 hp]
    rfl

/-- Witness for C4: `-1` fails (even on a malformed CIDR, showing the check
precedes parsing), `65536` fails, and `0` and `65535` succeed with a valid
CIDR. -/
theorem c4_site_id_range_check_witness :
    get_4via6_address (-1) "not-a-cidr" =
      .error "Site ID must be between 0 and 65535 (inclusive)" ∧
    get_4via6_address 65536 "10.100.0.0/16" =
      .error "Site ID must be between 0 and 65535 (inclusive)" ∧
    (get_4via6_address 0 "10.100.0.0/16").isOk = true ∧
    (get_4via6_address 65535 "10.100.0.0/16").isOk = true :=
  ⟨(c4_site_id_range_check (-1) "not-a-cidr").1 (by decide),
   (c4_site_id_range_check 65536 "10.100.0.0/16").1 (by decide),
   (c4_site_id_range_check 0 "10.100.0.0/16").2 (by decide) (by decide) 174325760 16 rfl,
   (c4_site_id_range_check 65535 "10.100.0.0/16").2 (by decide) (by decide) 174325760 16 rfl⟩

/-- C5: for every in-range site id, whenever the CIDR string is rejected by
the IPv4 network parser (with error `e`), `get_4via6_address` fails with
that same error. -/
theorem c5_malformed_cidr_rejected (site : Int) (s e : String)
    (h0 : 0 ≤ site) (h1 : site ≤ 65535) (hp : IPv4Network_parse s = .error e) :
    get_4via6_address site s = .error e :=
  get_4via6_address_err h0 h1 hp

/-- Witness for C5: a non-numeric string, an octet above 255, and a prefix
above 32 are all rejected. -/
theorem c5_malformed_cidr_rejected_witness :
    get_4via6_address 1 "not-a-cidr" = .error "Expected 4 octets" ∧
    get_4via6_address 1 "10.100.256.0/16" = .error "Octet greater than 255 not permitted" ∧
    get_4via6_address 1 "10.100.0.0/33" = .error "Invalid netmask" :=
  ⟨c5_malformed_cidr_rejected 1 "not-a-cidr" "Expected 4 octets"
      (by decide) (by decide) rfl,
   c5_malformed_cidr_rejected 1 "10.100.256.0/16" "Octet greater than 255 not permitted"
      (by decide) (by decide) rfl,
   c5_malformed_cidr_rejected 1 "10.100.0.0/33" "Invalid netmask"
      (by decide) (by decide) rfl⟩

/-- C6: for every successful invocation with parsed input prefix length `p`,
the decimal suffix after the final slash of the output equals `p + 96` and
lies in [96, 128]. -/
theorem c6_output_prefix_length (site : Int) (s : String) (a p : Nat) (out : String)
    (hp : IPv4Network_parse s = .ok (a, p)) (h : get_4via6_address site s = .ok out) :
    prefixLenOfOutput out = some (p + 96) ∧ 96 ≤ p + 96 ∧ p + 96 ≤ 128 := by
  have hout := get_4via6_address_ok_out hp h
  subst hout
  have hb := IPv4Network_parse_ok_bounds hp
  exact ⟨prefixLenOfOutput_outputChars _ _ _, by omega, by omega⟩

/-- Witness for C6 at the boundary prefixes: input prefix 0 gives output
prefix 96, input prefix 32 gives output prefix 128. -/
theorem c6_output_prefix_length_witness :
    (prefixLenOfOutput "fd7a:115c:a1e0:b1a:0:7:0000:0000/96" = some (0 + 96) ∧
      96 ≤ 0 + 96 ∧ 0 + 96 ≤ 128) ∧
    (prefixLenOfOutput "fd7a:115c:a1e0:b1a:0:7:0a00:0001/128" = some (32 + 96) ∧
      96 ≤ 32 + 96 ∧ 32 + 96 ≤ 128) :=
  ⟨c6_output_prefix_length 7 "0.0.0.0/0" 0 0 "fd7a:115c:a1e0:b1a:0:7:0000:0000/96" rfl rfl,
   c6_output_prefix_length 7 "10.0.0.1/32" 167772161 32
     "fd7a:115c:a1e0:b1a:0:7:0a00:0001/128" rfl rfl⟩

/-- C7: the two concrete cases from the spec. -/
theorem c7_concrete_cases :
    get_4via6_address 1 "10.100.0.0/16" = .ok "fd7a:115c:a1e0:b1a:0:1:0a64:0000/112" ∧
    get_4via6_address 0 "192.168.0.0/24" = .ok "fd7a:115c:a1e0:b1a:0:0:c0a8:0000/120" :=
  ⟨rfl, rfl⟩

/-- C8: the function is deterministic; two invocations on identical inputs
produce identical results (the embedding is a pure function with no state,
I/O or randomness). -/
theorem c8_deterministic (site : Int) (s : String) (r1 r2 : Except String String)
    (h1 : r1 = get_4via6_address site s) (h2 : r2 = get_4via6_address site s) :
    r1 = r2 :=
  h1.trans h2.symm

/-- Witness for C8 at `site_id = 1` and `"10.100.0.0/16"`. -/
theorem c8_deterministic_witness :
    get_4via6_address 1 "10.100.0.0/16" = get_4via6_address 1 "10.100.0.0/16" :=
  c8_deterministic 1 "10.100.0.0/16" _ _ rfl rfl

/-- C9: for every in-range site id and every bare dotted-quad address with
no slash that parses to `a`, the function succeeds, treating the address as
a /32 network, and the returned string ends in "/128". -/
theorem c9_bare_address_slash32 (site : Int) (s : String) (a : Nat)
    (h0 : 0 ≤ site) (h1 : site ≤ 65535) (hs : '/' ∉ s.data)
    (ha : ip_int_from_string s.data = .ok a) :
    get_4via6_address site s = .ok (String.mk (outputChars site.toNat a 32)) ∧
    List.IsSuffix "/128".data (outputChars site.toNat a 32) := by
  have hp := IPv4Network_parse_no_slash hs ha
  refine ⟨get_4via6_address_ok h0 h1 hp, ?_⟩
  refine ⟨"fd7a:115c:a1e0:b1a:0:".data ++ decChars site.toNat ++ [':'] ++
    hex2 (a / 2 ^ 24 % 256) ++ hex2 (a / 2 ^ 16 % 256) ++ [':'] ++
    hex2 (a / 2 ^ 8 % 256) ++ hex2 (a % 256), ?_⟩
  unfold outputChars
  rw [show decChars (32 + 96) = ['1', '2', '8'] from rfl,
    show ("/128".data : List Char) = ['/', '1', '2', '8'] from rfl]
  simp [List.append_assoc]

/-- Witness for C9 at `site_id = 5` and the bare address `"10.100.0.0"`. -/
theorem c9_bare_address_slash32_witness :
    get_4via6_address 5 "10.100.0.0" =
      .ok (String.mk (outputChars (5 : Int).toNat 174325760 32)) ∧
    List.IsSuffix "/128".data (outputChars (5 : Int).toNat 174325760 32) :=
  c9_bare_address_slash32 5 "10.100.0.0" 174325760 (by decide) (by decide) (by decide) rfl

/-- C10: the encoding is lossless: on every successful invocation with
network address `a` and prefix length `p`, decoding the last two
colon-separated hextets of the output as four big-endian hex bytes yields
exactly `a`, and the decimal suffix after the slash minus 96 yields
exactly `p`. -/
theorem c10_lossless_roundtrip (site : Int) (s : String) (a p : Nat) (out : String)
    (hp : IPv4Network_parse s = .ok (a, p)) (h : get_4via6_address site s = .ok out) :
    lastTwoHextetsValue out = some a ∧ prefixLenOfOutput out = some (p + 96) ∧
    (p + 96) - 96 = p := by
  have hout := get_4via6_address_ok_out hp h
  subst hout
  have hb := IPv4Network_parse_ok_bounds hp
  exact ⟨lastTwoHextetsValue_outputChars _ _ hb.1, prefixLenOfOutput_outputChars _ _ _,
    by omega⟩

/-- Witness for C10 at `site_id = 1` and `"10.100.0.0/16"`. -/
theorem c10_lossless_roundtrip_witness :
    lastTwoHextetsValue "fd7a:115c:a1e0:b1a:0:1:0a64:0000/112" = some 174325760 ∧
    prefixLenOfOutput "fd7a:115c:a1e0:b1a:0:1:0a64:0000/112" = some (16 + 96) ∧
    (16 + 96) - 96 = 16 :=
  c10_lossless_roundtrip 1 "10.100.0.0/16" 174325760 16
    "fd7a:115c:a1e0:b1a:0:1:0a64:0000/112" rfl rfl
